import Mathlib

/-! Site configuration change resolver.

A shallow embedding of `cmd/frontend/graphqlbackend/site_configuration_diff.go`
(`SiteConfigurationChangeResolver` and its methods `ID`, `PreviousID`, `Author`,
`Diff`, `CreatedAt`, `UpdatedAt`) together with the statements the specification
makes about it.

Go strings are byte sequences and are embedded as lists of bytes; `int32` values
are embedded as integers with the range predicate `inInt32`.
-/

namespace SiteConfigDiff

/-! ## Go strings -/

/-- One byte of a Go string. -/
abbrev Byte := Fin 256

/-- A Go `string`: an immutable sequence of bytes. -/
abbrev GoString := List Byte

/-- The Go string written by an ASCII literal. -/
def ascii (s : String) : GoString :=
  s.toList.map (fun c => Fin.ofNat c.toNat)

/-- The range of a Go `int32`. -/
def inInt32 (i : Int) : Prop := -2147483648 ≤ i ∧ i ≤ 2147483647

instance (i : Int) : Decidable (inInt32 i) := by
  unfold inInt32; infer_instance

/-! ## Data model -/

/-- A Go `time.Time` instant (seconds and nanoseconds since the epoch). -/
structure Time where
  sec : Int
  nsec : Nat
  deriving DecidableEq, Repr

/-- The fields of `database.SiteConfig` that the resolver reads. -/
structure SiteConfig where
  ID : Int
  AuthorUserID : Int
  Contents : GoString
  CreatedAt : Time
  UpdatedAt : Time
  deriving DecidableEq, Repr

/-- The wrapper `gqlutil.DateTime{Time: t}`. -/
structure DateTime where
  Time : Time
  deriving DecidableEq, Repr

/-- The resolver struct.  The resolver is built for a snapshot, so `siteConfig` is
that snapshot (the methods read through the pointer without a nil check);
`previousSiteConfig` is the pointer the methods test against nil. -/
structure SiteConfigurationChangeResolver (DB : Type) where
  db : DB
  siteConfig : SiteConfig
  previousSiteConfig : Option SiteConfig

/-- The constant `siteConfigurationKind`. -/
def siteConfigurationKind : GoString := ascii "SiteConfiguration"

/-! ## Identity codec

`relay.MarshalID(kind, spec)` is `base64.URLEncoding` applied to the bytes of
`kind`, a colon, and the JSON encoding of `spec`; for an `int32` the JSON encoding
is its decimal numeral. -/

/-- The alphabet of `base64.URLEncoding`. -/
def encodeURL : GoString :=
  ascii "ABCDEFGHIJKLMNOPQRSTUVWXYZabcdefghijklmnopqrstuvwxyz0123456789-_"

/-- The padding character `=` of the standard encodings. -/
def padChar : Byte := 61

/-- The character that stands for the six-bit value `i`. -/
def encSextet (i : Nat) : Byte := encodeURL.getD i padChar

/-- The six-bit value a character stands for, if it is in the alphabet. -/
def decSextet (c : Byte) : Option Nat :=
  let i := encodeURL.indexOf c
  if i < 64 then some i else none

/-- Modelled from the spec: the byte-to-text step of the identity codec's
`Encode`, which is `base64.URLEncoding.EncodeToString`, a library function that is
not in the repository: three bytes become four characters, and a final group of
one or two bytes is padded with `=`. -/
def base64Encode : GoString → GoString
  | [] => []
  | [a] => [encSextet (a.val / 4), encSextet (a.val % 4 * 16), padChar, padChar]
  | [a, b] =>
    [encSextet (a.val / 4), encSextet (a.val % 4 * 16 + b.val / 16),
     encSextet (b.val % 16 * 4), padChar]
  | a :: b :: c :: rest =>
    encSextet (a.val / 4) :: encSextet (a.val % 4 * 16 + b.val / 16) ::
    encSextet (b.val % 16 * 4 + c.val / 64) :: encSextet (c.val % 64) ::
    base64Encode rest

/-- The three bytes held by four six-bit values. -/
def quantumBytes (s0 s1 s2 s3 : Nat) : GoString :=
  [Fin.ofNat (s0 * 4 + s1 / 16), Fin.ofNat (s1 % 16 * 16 + s2 / 4),
   Fin.ofNat (s2 % 4 * 64 + s3)]

/-- Decoding of the last four characters of the input, which may be padded. -/
def decodeLastQuantum (c0 c1 c2 c3 : Byte) : Option GoString :=
  if c3 = padChar then
    if c2 = padChar then
      match decSextet c0, decSextet c1 with
      | some s0, some s1 => some ((quantumBytes s0 s1 0 0).take 1)
      | _, _ => none
    else
      match decSextet c0, decSextet c1, decSextet c2 with
      | some s0, some s1, some s2 => some ((quantumBytes s0 s1 s2 0).take 2)
      | _, _, _ => none
  else
    match decSextet c0, decSextet c1, decSextet c2, decSextet c3 with
    | some s0, some s1, some s2, some s3 => some (quantumBytes s0 s1 s2 s3)
    | _, _, _, _ => none

/-- Modelled from the spec: the text-to-byte step of the identity codec's
`Decode`, which is `base64.URLEncoding.DecodeString`, a library function that is
not in the repository.  The input is read four characters at a time; padding is
accepted in the last group only, and a character outside the alphabet or a length
that is not a multiple of four is an error. -/
def base64Decode : GoString → Option GoString
  | [] => some []
  | [c0, c1, c2, c3] => decodeLastQuantum c0 c1 c2 c3
  | c0 :: c1 :: c2 :: c3 :: rest =>
    match decSextet c0, decSextet c1, decSextet c2, decSextet c3, base64Decode rest with
    | some s0, some s1, some s2, some s3, some tl => some (quantumBytes s0 s1 s2 s3 ++ tl)
    | _, _, _, _, _ => none
  | _ => none

/-- The decimal digits of a natural number, most significant first, as ASCII. -/
def formatNat (n : Nat) : GoString :=
  if n = 0 then [48] else ((Nat.digits 10 n).reverse).map (fun d => Fin.ofNat (48 + d))

/-- Modelled from the spec: the raw identifier inside the identity codec's
`Encode`, which is `json.Marshal` of an `int32`, a library function that is not in
the repository: the decimal numeral, with a leading `-` when negative. -/
def jsonMarshalInt (i : Int) : GoString :=
  if i < 0 then 45 :: formatNat i.natAbs else formatNat i.natAbs

/-- The value of one ASCII decimal digit. -/
def digitValue (c : Byte) : Option Nat :=
  if 48 ≤ c.val ∧ c.val ≤ 57 then some (c.val - 48) else none

/-- The value of a string of ASCII decimal digits read after the value `acc`. -/
def parseDigits : GoString → Nat → Option Nat
  | [], acc => some acc
  | c :: cs, acc =>
    match digitValue c with
    | some d => parseDigits cs (acc * 10 + d)
    | none => none

/-- A JSON natural numeral: `0`, or digits that do not start with `0`. -/
def parseNat (s : GoString) : Option Nat :=
  match s with
  | [] => none
  | [c] => digitValue c
  | c :: cs => if c = 48 then none else parseDigits (c :: cs) 0

/-- A JSON integer numeral: an optional `-` and a natural numeral. -/
def parseInt (s : GoString) : Option Int :=
  match s with
  | c :: cs =>
    if c = 45 then
      match parseNat cs with
      | some n => some (-(n : Int))
      | none => none
    else
      match parseNat (c :: cs) with
      | some n => some (n : Int)
      | none => none
  | [] => none

/-- Modelled from the spec: `relay.MarshalID`, the `Encode(kind, rawID)` of the
identity codec, which lives in a library outside the repository: the base64 URL
encoding of `kind`, a colon and the JSON encoding of the raw identifier. -/
def MarshalID (kind : GoString) (id : Int) : GoString :=
  base64Encode (kind ++ 58 :: jsonMarshalInt id)

/-- The error the decoder reports. -/
inductive DecodeError where
  | ErrMalformedID
  deriving DecidableEq, Repr

/-- Modelled from the spec: `Decode(opaqueID) -> (kind, rawID)` of the identity
codec (`relay.UnmarshalKind` and `relay.UnmarshalSpec`, in a library outside the
repository): the kind is what stands before the first colon of the decoded bytes
and the raw identifier is the `int32` numeral after it; anything else fails with
`ErrMalformedID`. -/
def Decode (id : GoString) : Except DecodeError (GoString × Int) :=
  match base64Decode id with
  | none => .error .ErrMalformedID
  | some s =>
    let i := s.indexOf (58 : Byte)
    if i < s.length then
      match parseInt (s.drop (i + 1)) with
      | some v => if inInt32 v then .ok (s.take i, v) else .error .ErrMalformedID
      | none => .error .ErrMalformedID
    else .error .ErrMalformedID


/-! ## The comparison library

`Diff` calls `cmp.Diff(x, y)` of go-cmp, which is not part of the repository.  Its
documentation fixes two things: the report is empty exactly when the two values
are equal, and the report is of `y - x`, so that what is only in `x` is printed on
lines marked `-` and what is only in `y` on lines marked `+`.  The function is a
parameter of the embedding; `cmpReference` is one instance. -/

/-- A `cmp.Diff` on strings: `Diff x y` reports `y - x` and is empty exactly when
`x` and `y` are equal. -/
structure CmpDiff where
  Diff : GoString → GoString → GoString
  empty_iff : ∀ x y, Diff x y = [] ↔ x = y

/-- The lower-case hexadecimal digit of a value below sixteen. -/
def hexDigit (n : Nat) : Byte := (ascii "0123456789abcdef").getD n 48

/-- The text `strconv.Quote` writes for one byte of an ASCII string: a backslash
escape for the double quote, the backslash and the control characters, and the
byte itself otherwise.  A byte outside ASCII is written as a `\x` escape, which is
what `strconv.Quote` does with a byte that is not part of valid UTF-8. -/
def quoteByte (b : Byte) : GoString :=
  if b = 34 then [92, 34]
  else if b = 92 then [92, 92]
  else if b = 7 then [92, 97]
  else if b = 8 then [92, 98]
  else if b = 12 then [92, 102]
  else if b = 10 then [92, 110]
  else if b = 13 then [92, 114]
  else if b = 9 then [92, 116]
  else if b = 11 then [92, 118]
  else if b.val < 32 ∨ 127 ≤ b.val then [92, 120, hexDigit (b.val / 16), hexDigit (b.val % 16)]
  else [b]

/-- The escaped text of a string, without the surrounding quotes. -/
def quoteBytes : GoString → GoString
  | [] => []
  | b :: bs => quoteByte b ++ quoteBytes bs

/-- The Go function `strconv.Quote` on an ASCII string. -/
def strconvQuote (s : GoString) : GoString :=
  34 :: quoteBytes s ++ [34]

/-- Whether a byte may stand in the raw (backquoted) form of the report: a
printable ASCII character other than the backquote, or a tab. -/
def rawValid (b : Byte) : Bool :=
  decide (b = 9) || (decide (32 ≤ b.val) && decide (b.val ≤ 126) && !decide (b = 96))

/-- The function `formatString` of go-cmp's reporter, on ASCII strings: the quoted
string when quoting escapes nothing, else the string between backquotes when every
character may stand there, else the quoted string. -/
def formatString (s : GoString) : GoString :=
  if (strconvQuote s).length = 1 + s.length + 1 then strconvQuote s
  else if s.all rawValid then 96 :: s ++ [96]
  else strconvQuote s

/-- The report go-cmp prints for two single-line ASCII strings of which one is
shorter than 32 bytes, in a process that indents with plain spaces: nothing when
they are equal, and otherwise a `string(...)` block with `x` on the line marked
`-` and `y` on the line marked `+`.  (For longer or multi-line strings go-cmp
prints a line-by-line report, and a process may indent with U+00A0 instead of
spaces; `x` is on the `-` lines and `y` on the `+` lines in all of them.) -/
def reportStrings (x y : GoString) : GoString :=
  if x = y then []
  else ascii "  string(\n- \t" ++ formatString x ++ ascii ",\n+ \t" ++ formatString y ++
    ascii ",\n  )\n"

/-! ## The redaction policy

The source has no redaction (`// TODO: Implement redaction.`); the policy below is
the one the specification describes, used to say which inputs differ in redacted
fields only. -/

/-- The lines of a document. -/
def splitLines : GoString → List GoString
  | [] => [[]]
  | c :: cs =>
    match splitLines cs with
    | [] => [[c]]
    | l :: ls => if c = 10 then [] :: l :: ls else (c :: l) :: ls

/-- The document made of the given lines. -/
def joinLines : List GoString → GoString
  | [] => []
  | [l] => l
  | l :: ls => l ++ 10 :: joinLines ls

/-- The fixed placeholder of the redaction pass. -/
def redactedPlaceholder : GoString := ascii "REDACTED"

/-- Redaction of one line `field: value`: the value of a field of the pattern set
is replaced by the placeholder. -/
def redactLine (patterns : List GoString) (line : GoString) : GoString :=
  let i := line.indexOf (58 : Byte)
  if i < line.length ∧ line.take i ∈ patterns then
    line.take i ++ ascii ": " ++ redactedPlaceholder
  else line

/-- Modelled from the spec: the redaction pass of the diff engine, which the
source does not have: every value of a field matching the configured set of
sensitive-field patterns is replaced by a fixed placeholder. -/
def redact (patterns : List GoString) (contents : GoString) : GoString :=
  joinLines ((splitLines contents).map (redactLine patterns))

/-! ## The resolver's methods -/

section Methods

variable {DB : Type}

/-- The method `ID`: `relay.MarshalID(siteConfigurationKind, r.siteConfig.ID)`. -/
def ID (r : SiteConfigurationChangeResolver DB) : GoString :=
  MarshalID siteConfigurationKind r.siteConfig.ID

/-- The method `PreviousID`: the marshalled id of the previous site config when
there is one, and nil otherwise. -/
def PreviousID (r : SiteConfigurationChangeResolver DB) : Option GoString :=
  match r.previousSiteConfig with
  | some prev => some (MarshalID siteConfigurationKind prev.ID)
  | none => none

/-- The method `Author`.  `UserByIDInt32 ctx db id` is the lookup in the user
source; it is given the state `w` of that source and returns the Go pair
`(user, err)` with the state after the lookup.  The result is the Go pair
`(*UserResolver, error)` and the state the call leaves. -/
def Author {Ctx User Err W : Type}
    (UserByIDInt32 : Ctx → DB → Int → W → (Option User × Option Err) × W)
    (r : SiteConfigurationChangeResolver DB) (ctx : Ctx) (w : W) :
    (Option User × Option Err) × W :=
  if r.siteConfig.AuthorUserID = 0 then ((none, none), w)
  else
    match UserByIDInt32 ctx r.db r.siteConfig.AuthorUserID w with
    | ((user, err), w') =>
      match err with
      | some e => ((none, some e), w')
      | none => ((user, none), w')

/-- The method `Diff`: empty without a previous site config, and otherwise
`cmp.Diff(r.siteConfig.Contents, r.previousSiteConfig.Contents)`. -/
def Diff (cmp : CmpDiff) (r : SiteConfigurationChangeResolver DB) : GoString :=
  match r.previousSiteConfig with
  | none => []
  | some prev => cmp.Diff r.siteConfig.Contents prev.Contents

/-- The method `CreatedAt`. -/
def CreatedAt (r : SiteConfigurationChangeResolver DB) : DateTime :=
  { Time := r.siteConfig.CreatedAt }

/-- The method `UpdatedAt`. -/
def UpdatedAt (r : SiteConfigurationChangeResolver DB) : DateTime :=
  { Time := r.siteConfig.UpdatedAt }

end Methods

/-- The reference comparison: `reportStrings`, which is empty exactly on equal
arguments.  It is go-cmp's report on the inputs `reportStrings` describes and is
used at such inputs only. -/
def cmpReference : CmpDiff where
  Diff := reportStrings
  empty_iff := by
    intro x y
    unfold reportStrings
    by_cases h : x = y
    · simp [h]
    · simp [h, ascii]


/-! ## Scenarios of the specification -/

/-- The instant used for the timestamps of the scenarios. -/
def epoch : Time := { sec := 0, nsec := 0 }

/-- Snapshot A of the scenario: `id=1`, `contents="foo: 1"`, no author. -/
def snapshotA : SiteConfig :=
  { ID := 1, AuthorUserID := 0, Contents := ascii "foo: 1", CreatedAt := epoch, UpdatedAt := epoch }

/-- Snapshot B of the scenario: `id=2`, `contents="foo: 2"`, `authorID=42`. -/
def snapshotB : SiteConfig :=
  { ID := 2, AuthorUserID := 42, Contents := ascii "foo: 2", CreatedAt := epoch,
    UpdatedAt := epoch }

/-- The revision with `token: "abc123"`. -/
def tokenBefore : SiteConfig :=
  { ID := 1, AuthorUserID := 0, Contents := ascii "token: \"abc123\"", CreatedAt := epoch,
    UpdatedAt := epoch }

/-- The next revision, with `token: "xyz789"`. -/
def tokenAfter : SiteConfig :=
  { ID := 2, AuthorUserID := 0, Contents := ascii "token: \"xyz789\"", CreatedAt := epoch,
    UpdatedAt := epoch }

/-- A next revision that leaves the token of `tokenBefore` as it was. -/
def tokenKept : SiteConfig :=
  { ID := 2, AuthorUserID := 0, Contents := ascii "token: \"abc123\"", CreatedAt := epoch,
    UpdatedAt := epoch }

/-- A two-field document with a password. -/
def passwordBefore : SiteConfig :=
  { ID := 7, AuthorUserID := 3, Contents := ascii "url: \"a\"\npassword: \"hunter2\"",
    CreatedAt := epoch, UpdatedAt := epoch }

/-- The same document with another password. -/
def passwordAfter : SiteConfig :=
  { ID := 8, AuthorUserID := 3, Contents := ascii "url: \"a\"\npassword: \"correct\"",
    CreatedAt := epoch, UpdatedAt := epoch }

/-- A user source with the single user `42`: the lookup counts the queries it
receives in its state and answers `NotFound` for every other id. -/
def oneUserSource (_ctx : Unit) (_db : Unit) (id : Int) (queries : Nat) :
    (Option String × Option String) × Nat :=
  if id = 42 then ((some "user42", none), queries + 1)
  else ((none, some "NotFound"), queries + 1)

/-! ## Theorems -/

section Theorems

/-! ### The identity codec -/

/-- Every six-bit value is read back from its character. -/
theorem decSextet_encSextet : ∀ i : Fin 64, decSextet (encSextet i.val) = some i.val := by
  decide

/-- No character of the alphabet is the padding character. -/
theorem encSextet_ne_pad : ∀ i : Fin 64, encSextet i.val ≠ padChar := by
  decide

/-- Every six-bit value is read back from its character (on naturals). -/
theorem decSextet_enc (i : Nat) (h : i < 64) : decSextet (encSextet i) = some i :=
  decSextet_encSextet ⟨i, h⟩

/-- No character of the alphabet is the padding character (on naturals). -/
theorem encSextet_ne (i : Nat) (h : i < 64) : encSextet i ≠ padChar :=
  encSextet_ne_pad ⟨i, h⟩

/-- A byte is the byte of its own value. -/
theorem byte_ofNat_eq (a : Byte) (n : Nat) (h : n = a.val) : (Fin.ofNat n : Byte) = a := by
  apply Fin.ext
  have := a.isLt
  simp only [Fin.ofNat]
  omega

/-- Three bytes are read back from their four six-bit values. -/
theorem quantumBytes_full (a b c : Byte) :
    quantumBytes (a.val / 4) (a.val % 4 * 16 + b.val / 16) (b.val % 16 * 4 + c.val / 64)
      (c.val % 64) = [a, b, c] := by
  have ha := a.isLt
  have hb := b.isLt
  have hc := c.isLt
  unfold quantumBytes
  rw [byte_ofNat_eq a _ (by omega), byte_ofNat_eq b _ (by omega), byte_ofNat_eq c _ (by omega)]

/-- Two bytes are read back from their three six-bit values. -/
theorem quantumBytes_two (a b : Byte) :
    (quantumBytes (a.val / 4) (a.val % 4 * 16 + b.val / 16) (b.val % 16 * 4) 0).take 2
      = [a, b] := by
  have ha := a.isLt
  have hb := b.isLt
  unfold quantumBytes
  rw [byte_ofNat_eq a _ (by omega), byte_ofNat_eq b _ (by omega)]
  rfl

/-- One byte is read back from its two six-bit values. -/
theorem quantumBytes_one (a : Byte) :
    (quantumBytes (a.val / 4) (a.val % 4 * 16) 0 0).take 1 = [a] := by
  have ha := a.isLt
  unfold quantumBytes
  rw [byte_ofNat_eq a _ (by omega)]
  rfl

/-- The encoding of a non-empty string is not empty. -/
theorem base64Encode_cons_ne_nil (a : Byte) (l : GoString) :
    ∃ y ys, base64Encode (a :: l) = y :: ys := by
  match l with
  | [] => exact ⟨_, _, rfl⟩
  | [b] => exact ⟨_, _, rfl⟩
  | b :: c :: rest => exact ⟨_, _, by rw [base64Encode]⟩

/-- Decoding inverts encoding. -/
theorem base64Decode_encode (s : GoString) : base64Decode (base64Encode s) = some s := by
  induction s using base64Encode.induct with
  | case1 => rfl
  | case2 a =>
    have ha := a.isLt
    simp only [base64Encode, base64Decode, decodeLastQuantum, if_true]
    rw [decSextet_enc _ (by omega), decSextet_enc _ (by omega)]
    dsimp only
    rw [quantumBytes_one]
  | case3 a b =>
    have ha := a.isLt
    have hb := b.isLt
    simp only [base64Encode, base64Decode, decodeLastQuantum, if_true]
    rw [if_neg (encSextet_ne _ (by omega)), decSextet_enc _ (by omega),
      decSextet_enc _ (by omega), decSextet_enc _ (by omega)]
    dsimp only
    rw [quantumBytes_two]
  | case4 a b c rest ih =>
    have ha := a.isLt
    have hb := b.isLt
    have hc := c.isLt
    rw [base64Encode]
    cases rest with
    | nil =>
      simp only [base64Encode, base64Decode, decodeLastQuantum]
      rw [if_neg (encSextet_ne _ (by omega)), decSextet_enc _ (by omega),
        decSextet_enc _ (by omega), decSextet_enc _ (by omega), decSextet_enc _ (by omega)]
      dsimp only
      rw [quantumBytes_full]
    | cons x xs =>
      obtain ⟨y, ys, hy⟩ := base64Encode_cons_ne_nil x xs
      rw [hy] at ih ⊢
      rw [base64Decode, ih, decSextet_enc _ (by omega),
        decSextet_enc _ (by omega), decSextet_enc _ (by omega), decSextet_enc _ (by omega)]
      · dsimp only
        rw [quantumBytes_full]
        rfl
      · intro h
        cases h


/-- The character of a digit has the digit's value. -/
theorem digitValue_digit (d : Nat) (h : d < 10) :
    digitValue (Fin.ofNat (48 + d) : Byte) = some d := by
  have hv : (Fin.ofNat (48 + d) : Byte).val = 48 + d := by
    simp only [Fin.ofNat]; omega
  unfold digitValue
  rw [hv, if_pos (by omega)]
  congr 1
  omega

/-- Reading the characters of a list of digits folds the digits. -/
theorem parseDigits_map (ds : List Nat) (h : ∀ d ∈ ds, d < 10) (acc : Nat) :
    parseDigits (ds.map (fun d => (Fin.ofNat (48 + d) : Byte))) acc =
      some (ds.foldl (fun a d => a * 10 + d) acc) := by
  induction ds generalizing acc with
  | nil => rfl
  | cons d ds ih =>
    simp only [List.map_cons, parseDigits, List.foldl_cons]
    rw [digitValue_digit d (h d (List.mem_cons_self _ _))]
    exact ih (fun x hx => h x (List.mem_cons_of_mem _ hx)) _

/-- Folding digits from the most significant one gives the number they write. -/
theorem foldl_reverse_digits (ds : List Nat) :
    ds.reverse.foldl (fun a d => a * 10 + d) 0 = Nat.ofDigits 10 ds := by
  induction ds with
  | nil => rfl
  | cons d ds ih =>
    rw [List.reverse_cons, List.foldl_append, ih, Nat.ofDigits_cons]
    simp only [List.foldl_cons, List.foldl_nil]
    omega

/-- The digits of a positive number are read back as the number. -/
theorem parseDigits_formatNat (n : Nat) (h : n ≠ 0) :
    parseDigits (formatNat n) 0 = some n := by
  unfold formatNat
  rw [if_neg h, parseDigits_map _ (fun d hd => Nat.digits_lt_base (by norm_num)
    (List.mem_reverse.mp hd)), foldl_reverse_digits, Nat.ofDigits_digits]

/-- Every character of a numeral is an ASCII digit. -/
theorem formatNat_digits (n : Nat) : ∀ c ∈ formatNat n, 48 ≤ c.val ∧ c.val ≤ 57 := by
  intro c hc
  unfold formatNat at hc
  split at hc
  · simp only [List.mem_singleton] at hc
    subst hc
    decide
  · rw [List.mem_map] at hc
    obtain ⟨d, hd, rfl⟩ := hc
    have := Nat.digits_lt_base (b := 10) (by norm_num) (List.mem_reverse.mp hd)
    simp only [Fin.ofNat]
    omega

/-- The numeral of a positive number does not start with `0`. -/
theorem formatNat_head (n : Nat) (h : n ≠ 0) :
    ∃ c cs, formatNat n = c :: cs ∧ c ≠ 48 := by
  unfold formatNat
  rw [if_neg h]
  have hne : Nat.digits 10 n ≠ [] := Nat.digits_ne_nil_iff_ne_zero.mpr h
  have hlast := Nat.getLast_digit_ne_zero 10 h
  have hlt := Nat.digits_lt_base (b := 10) (m := n) (by norm_num) (List.getLast_mem hne)
  rw [← List.dropLast_append_getLast hne, List.reverse_append]
  refine ⟨_, _, rfl, ?_⟩
  intro hc
  have := congrArg Fin.val hc
  simp only [Fin.ofNat] at this
  revert this
  generalize (Nat.digits 10 n).getLast hne = d at hlast hlt
  intro this
  change (48 + d) % 256 = 48 at this
  omega

/-- A natural numeral is read back as its number. -/
theorem parseNat_formatNat (n : Nat) : parseNat (formatNat n) = some n := by
  by_cases h : n = 0
  · subst h; rfl
  · obtain ⟨c, cs, hcs, hc⟩ := formatNat_head n h
    have hp := parseDigits_formatNat n h
    rw [hcs] at hp ⊢
    cases cs with
    | nil =>
      simp only [parseNat]
      simp only [parseDigits] at hp
      cases hd : digitValue c with
      | none => rw [hd] at hp; cases hp
      | some d =>
        rw [hd] at hp
        simp only [Nat.zero_mul, Nat.zero_add] at hp
        exact hp
    | cons c' cs' =>
      simp only [parseNat]
      rw [if_neg hc]
      exact hp

/-- An integer numeral is read back as its number. -/
theorem parseInt_jsonMarshalInt (i : Int) : parseInt (jsonMarshalInt i) = some i := by
  unfold jsonMarshalInt
  by_cases h : i < 0
  · rw [if_pos h]
    simp only [parseInt, if_true, parseNat_formatNat]
    congr 1
    omega
  · rw [if_neg h]
    have hd := formatNat_digits i.natAbs
    have hp := parseNat_formatNat i.natAbs
    cases hf : formatNat i.natAbs with
    | nil => rw [hf] at hp; cases hp
    | cons c cs =>
      rw [hf] at hd hp
      have hc := hd c (List.mem_cons_self _ _)
      have hne : c ≠ 45 := by
        intro hc'
        subst hc'
        revert hc
        decide
      simp only [parseInt]
      rw [if_neg hne, hp]
      dsimp only
      congr 1
      omega

/-- An integer numeral has no colon. -/
theorem colon_not_mem_jsonMarshalInt (i : Int) : (58 : Byte) ∉ jsonMarshalInt i := by
  intro hmem
  have hd := formatNat_digits i.natAbs
  unfold jsonMarshalInt at hmem
  split at hmem
  · rcases List.mem_cons.mp hmem with h | h
    · revert h; decide
    · have := hd _ h
      revert this; decide
  · have := hd _ hmem
    revert this; decide


/-- The base64 encoding is injective. -/
theorem base64Encode_injective (s t : GoString) (h : base64Encode s = base64Encode t) :
    s = t := by
  have := congrArg base64Decode h
  rw [base64Decode_encode, base64Decode_encode] at this
  exact Option.some.inj this

/-- Integer numerals are injective. -/
theorem jsonMarshalInt_injective (i j : Int) (h : jsonMarshalInt i = jsonMarshalInt j) :
    i = j := by
  have := congrArg parseInt h
  rw [parseInt_jsonMarshalInt, parseInt_jsonMarshalInt] at this
  exact Option.some.inj this

/-- A string is split in one way at its last colon. -/
theorem append_colon_inj (k1 k2 d1 d2 : GoString) (h1 : (58 : Byte) ∉ d1)
    (h2 : (58 : Byte) ∉ d2) (h : k1 ++ 58 :: d1 = k2 ++ 58 :: d2) : k1 = k2 ∧ d1 = d2 := by
  induction k1 generalizing k2 with
  | nil =>
    cases k2 with
    | nil => exact ⟨rfl, by simpa using h⟩
    | cons x k2 =>
      exfalso
      simp only [List.nil_append, List.cons_append, List.cons.injEq] at h
      apply h1
      rw [h.2]
      simp
  | cons y k1 ih =>
    cases k2 with
    | nil =>
      exfalso
      simp only [List.nil_append, List.cons_append, List.cons.injEq] at h
      apply h2
      rw [← h.2]
      simp
    | cons x k2 =>
      simp only [List.cons_append, List.cons.injEq] at h
      obtain ⟨hk, hd⟩ := ih k2 h.2
      exact ⟨by rw [h.1, hk], hd⟩

/-- Equal marshalled identifiers have equal kinds and equal raw ids. -/
theorem MarshalID_inj (k1 k2 : GoString) (i1 i2 : Int)
    (h : MarshalID k1 i1 = MarshalID k2 i2) : k1 = k2 ∧ i1 = i2 := by
  have hs := base64Encode_injective _ _ h
  obtain ⟨hk, hd⟩ := append_colon_inj k1 k2 _ _ (colon_not_mem_jsonMarshalInt i1)
    (colon_not_mem_jsonMarshalInt i2) hs
  exact ⟨hk, jsonMarshalInt_injective _ _ hd⟩

/-- Decoding inverts marshalling for a kind without a colon and an `int32` id. -/
theorem Decode_MarshalID (kind : GoString) (id : Int) (hk : (58 : Byte) ∉ kind)
    (hid : inInt32 id) : Decode (MarshalID kind id) = .ok (kind, id) := by
  unfold Decode MarshalID
  rw [base64Decode_encode]
  have hi : (kind ++ 58 :: jsonMarshalInt id).indexOf (58 : Byte) = kind.length := by
    rw [List.indexOf_append_of_not_mem hk, List.indexOf_cons_self, Nat.add_zero]
  simp only [hi, List.length_append, List.length_cons]
  rw [if_pos (by omega)]
  have hdrop : (kind ++ 58 :: jsonMarshalInt id).drop (kind.length + 1) = jsonMarshalInt id := by
    rw [List.drop_append_eq_append_drop]
    simp
  have htake : (kind ++ 58 :: jsonMarshalInt id).take kind.length = kind := by
    simp
  rw [hdrop, htake, parseInt_jsonMarshalInt]
  dsimp only
  rw [if_pos hid]

/-- The kind `SiteConfiguration` has no colon. -/
theorem colon_not_mem_kind : (58 : Byte) ∉ siteConfigurationKind := by decide

/-! ### The resolver -/

/-- C3: a resolver built without a previous site config has no `PreviousID` and an
empty `Diff`, whatever its contents and whatever the comparison library; and
`PreviousID` is nil only when there is no previous site config. -/
theorem first_snapshot_has_no_previous :
    (∀ (DB : Type) (c : CmpDiff) (db : DB) (sc : SiteConfig),
      PreviousID (⟨db, sc, none⟩ : SiteConfigurationChangeResolver DB) = none ∧
      Diff c (⟨db, sc, none⟩ : SiteConfigurationChangeResolver DB) = []) ∧
    (∀ (DB : Type) (r : SiteConfigurationChangeResolver DB),
      PreviousID r = none ↔ r.previousSiteConfig = none) := by
  refine ⟨fun DB c db sc => ⟨rfl, rfl⟩, fun DB r => ?_⟩
  unfold PreviousID
  cases r.previousSiteConfig <;> simp

/-- C1 (code at the failing input): with `token` in the pattern set the contents
`token: "abc123"` and `token: "xyz789"` are the same after redaction, and `Diff`
of the two revisions is not empty, whatever the comparison library. -/
theorem Diff_of_redacted_change_nonempty :
    redact [ascii "token"] tokenAfter.Contents = redact [ascii "token"] tokenBefore.Contents ∧
    ∀ c : CmpDiff,
      Diff c (⟨(), tokenAfter, some tokenBefore⟩ : SiteConfigurationChangeResolver Unit) ≠ [] := by
  refine ⟨by decide, fun c => ?_⟩
  show c.Diff tokenAfter.Contents tokenBefore.Contents ≠ []
  rw [Ne, c.empty_iff]
  decide

/-- C2 (code at the failing input): two runs of `Diff` whose inputs are the same
after redaction of `token` return different strings, whatever the comparison
library, and the report of the reference comparison shows the token of the
previous revision in clear. -/
theorem Diff_depends_on_sensitive_values :
    redact [ascii "token"] tokenAfter.Contents = redact [ascii "token"] tokenKept.Contents ∧
    (∀ c : CmpDiff,
      Diff c (⟨(), tokenAfter, some tokenBefore⟩ : SiteConfigurationChangeResolver Unit) ≠
      Diff c (⟨(), tokenKept, some tokenBefore⟩ : SiteConfigurationChangeResolver Unit)) ∧
    Diff cmpReference (⟨(), tokenAfter, some tokenBefore⟩ : SiteConfigurationChangeResolver Unit) =
      ascii "  string(\n- \t" ++ ascii "`token: \"xyz789\"`" ++ ascii ",\n+ \t" ++
        ascii "`token: \"" ++ ascii "abc123" ++ ascii "\"`,\n  )\n" := by
  refine ⟨by decide, fun c => ?_, by decide⟩
  show c.Diff tokenAfter.Contents tokenBefore.Contents ≠
    c.Diff tokenKept.Contents tokenBefore.Contents
  have h1 : c.Diff tokenKept.Contents tokenBefore.Contents = [] :=
    (c.empty_iff _ _).mpr (by decide)
  rw [h1, Ne, c.empty_iff]
  decide

/-- C4 (code at the failing input): `Diff` passes the snapshot's own contents as
the first argument of `cmp.Diff` and the previous contents as the second, so the
report of the change from `foo: 1` to `foo: 2` has `foo: 2` on the line marked `-`
and `foo: 1` on the line marked `+`. -/
theorem Diff_argument_order :
    (∀ (DB : Type) (c : CmpDiff) (db : DB) (sc prev : SiteConfig),
      Diff c (⟨db, sc, some prev⟩ : SiteConfigurationChangeResolver DB) =
        c.Diff sc.Contents prev.Contents) ∧
    Diff cmpReference (⟨(), snapshotB, some snapshotA⟩ : SiteConfigurationChangeResolver Unit) =
      ascii "  string(\n- \t\"foo: 2\",\n+ \t\"foo: 1\",\n  )\n" := by
  refine ⟨fun DB c db sc prev => rfl, by decide⟩

/-- C6 (code at the failing input): with a previous site config `Diff` is empty
exactly when the raw contents are equal; two documents that differ in the redacted
`password` only are the same after redaction and still have a non-empty `Diff`. -/
theorem Diff_empty_iff_raw_contents_eq :
    (∀ (DB : Type) (c : CmpDiff) (db : DB) (sc prev : SiteConfig),
      Diff c (⟨db, sc, some prev⟩ : SiteConfigurationChangeResolver DB) = [] ↔
        sc.Contents = prev.Contents) ∧
    redact [ascii "password"] passwordAfter.Contents =
      redact [ascii "password"] passwordBefore.Contents ∧
    ∀ c : CmpDiff,
      Diff c (⟨(), passwordAfter, some passwordBefore⟩ : SiteConfigurationChangeResolver Unit)
        ≠ [] := by
  refine ⟨fun DB c db sc prev => c.empty_iff _ _, by decide, fun c => ?_⟩
  show c.Diff passwordAfter.Contents passwordBefore.Contents ≠ []
  rw [Ne, c.empty_iff]
  decide

/-- C7: when `AuthorUserID` is zero, `Author` returns no user and no error and
leaves the user source as it was, whatever the lookup would do. -/
theorem Author_of_absent_author {DB Ctx User Err W : Type}
    (UserByIDInt32 : Ctx → DB → Int → W → (Option User × Option Err) × W)
    (r : SiteConfigurationChangeResolver DB) (ctx : Ctx) (w : W)
    (h : r.siteConfig.AuthorUserID = 0) :
    Author UserByIDInt32 r ctx w = ((none, none), w) := by
  simp [Author, h]

/-- Witness of C7: snapshot A has no author, and `Author` on it returns no user,
no error, and a source that has received no query. -/
theorem Author_of_absent_author_witness :
    snapshotA.AuthorUserID = 0 ∧
    Author oneUserSource (⟨(), snapshotA, none⟩ : SiteConfigurationChangeResolver Unit) () 0 =
      ((none, none), 0) :=
  ⟨by decide, Author_of_absent_author oneUserSource ⟨(), snapshotA, none⟩ () 0 (by decide)⟩

/-- C8: when `AuthorUserID` is not zero, `Author` looks that id up once: a user
found without error is returned without error, an error of the lookup is returned
unchanged and without a user, and a user and an error are never returned
together. -/
theorem Author_of_present_author {DB Ctx User Err W : Type}
    (UserByIDInt32 : Ctx → DB → Int → W → (Option User × Option Err) × W)
    (r : SiteConfigurationChangeResolver DB) (ctx : Ctx) (w : W)
    (h : r.siteConfig.AuthorUserID ≠ 0) :
    (∀ user w', UserByIDInt32 ctx r.db r.siteConfig.AuthorUserID w = ((user, none), w') →
      Author UserByIDInt32 r ctx w = ((user, none), w')) ∧
    (∀ user e w', UserByIDInt32 ctx r.db r.siteConfig.AuthorUserID w = ((user, some e), w') →
      Author UserByIDInt32 r ctx w = ((none, some e), w')) ∧
    ¬ ((Author UserByIDInt32 r ctx w).1.1.isSome = true ∧
       (Author UserByIDInt32 r ctx w).1.2.isSome = true) := by
  refine ⟨fun user w' hl => ?_, fun user e w' hl => ?_, ?_⟩
  · simp [Author, h, hl]
  · simp [Author, h, hl]
  · rcases hl : UserByIDInt32 ctx r.db r.siteConfig.AuthorUserID w with ⟨⟨user, err⟩, w'⟩
    cases err <;> simp [Author, h, hl]

/-- Witness of C8: snapshot B has the author `42`, whom the source knows, and
`Author` returns that user, no error, and a source that has received one query. -/
theorem Author_of_present_author_witness :
    snapshotB.AuthorUserID ≠ 0 ∧
    Author oneUserSource (⟨(), snapshotB, some snapshotA⟩ : SiteConfigurationChangeResolver Unit)
      () 0 = ((some "user42", none), 1) :=
  ⟨by decide,
   (Author_of_present_author oneUserSource
      (⟨(), snapshotB, some snapshotA⟩ : SiteConfigurationChangeResolver Unit) () 0
      (by decide)).1 (some "user42") 1 (by decide)⟩

/-- C5: the identifier returned by `ID` decodes to the kind `"SiteConfiguration"`
and the snapshot's id, and the identifier returned by `PreviousID`, when there is a
previous site config, decodes to the kind `"SiteConfiguration"` and its id. -/
theorem ID_roundtrip {DB : Type} (r : SiteConfigurationChangeResolver DB)
    (h : inInt32 r.siteConfig.ID) (hp : ∀ p ∈ r.previousSiteConfig, inInt32 p.ID) :
    Decode (ID r) = .ok (ascii "SiteConfiguration", r.siteConfig.ID) ∧
    (PreviousID r).map Decode =
      r.previousSiteConfig.map (fun p => .ok (ascii "SiteConfiguration", p.ID)) := by
  have hkind : siteConfigurationKind = ascii "SiteConfiguration" := by decide
  rw [← hkind]
  refine ⟨Decode_MarshalID _ _ colon_not_mem_kind h, ?_⟩
  unfold PreviousID
  cases hprev : r.previousSiteConfig with
  | none => rfl
  | some p =>
    simp only [Option.map_some']
    rw [Decode_MarshalID _ _ colon_not_mem_kind (hp p (by rw [hprev]; exact rfl))]

/-- Witness of C5: for snapshot B after snapshot A, `ID` decodes to the kind
`"SiteConfiguration"` and B's id `2`, and `PreviousID` decodes to the kind
`"SiteConfiguration"` and A's id `1`. -/
theorem ID_roundtrip_witness :
    inInt32 snapshotB.ID ∧ inInt32 snapshotA.ID ∧
    Decode (ID (⟨(), snapshotB, some snapshotA⟩ : SiteConfigurationChangeResolver Unit)) =
      .ok (ascii "SiteConfiguration", 2) ∧
    (PreviousID (⟨(), snapshotB, some snapshotA⟩ : SiteConfigurationChangeResolver Unit)).map
      Decode = some (.ok (ascii "SiteConfiguration", 1)) :=
  ⟨by decide, by decide,
   ID_roundtrip (⟨(), snapshotB, some snapshotA⟩ : SiteConfigurationChangeResolver Unit)
     (by decide) (by intro p hp; cases hp; decide)⟩

/-- C9: two marshalled identifiers are equal exactly when their kinds and their raw
ids are equal; so two resolvers have the same `ID` exactly when their snapshots
have the same id, and the `ID` of a resolver is the marshalled identifier of
another kind for no raw id of the same value. -/
theorem MarshalID_collision_free :
    (∀ (k1 k2 : GoString) (i1 i2 : Int),
      MarshalID k1 i1 = MarshalID k2 i2 ↔ (k1 = k2 ∧ i1 = i2)) ∧
    (∀ (DB : Type) (r1 r2 : SiteConfigurationChangeResolver DB),
      ID r1 = ID r2 ↔ r1.siteConfig.ID = r2.siteConfig.ID) ∧
    (∀ (DB : Type) (r : SiteConfigurationChangeResolver DB) (k : GoString),
      ID r = MarshalID k r.siteConfig.ID ↔ k = siteConfigurationKind) := by
  refine ⟨fun k1 k2 i1 i2 => ⟨MarshalID_inj k1 k2 i1 i2, ?_⟩, fun DB r1 r2 => ⟨?_, ?_⟩,
    fun DB r k => ⟨?_, ?_⟩⟩
  · rintro ⟨rfl, rfl⟩; rfl
  · intro h; exact (MarshalID_inj _ _ _ _ h).2
  · intro h; unfold ID; rw [h]
  · intro h; exact (MarshalID_inj _ _ _ _ h).1.symm
  · rintro rfl; rfl

/-- C10: `CreatedAt` and `UpdatedAt` carry the snapshot's own `CreatedAt` and
`UpdatedAt`, and are the same whatever the previous site config is. -/
theorem timestamps_verbatim :
    (∀ (DB : Type) (r : SiteConfigurationChangeResolver DB),
      (CreatedAt r).Time = r.siteConfig.CreatedAt ∧
      (UpdatedAt r).Time = r.siteConfig.UpdatedAt) ∧
    (∀ (DB : Type) (db : DB) (sc : SiteConfig) (p q : Option SiteConfig),
      CreatedAt (⟨db, sc, p⟩ : SiteConfigurationChangeResolver DB) =
        CreatedAt (⟨db, sc, q⟩ : SiteConfigurationChangeResolver DB) ∧
      UpdatedAt (⟨db, sc, p⟩ : SiteConfigurationChangeResolver DB) =
        UpdatedAt (⟨db, sc, q⟩ : SiteConfigurationChangeResolver DB)) :=
  ⟨fun _ _ => ⟨rfl, rfl⟩, fun _ _ _ _ _ => ⟨rfl, rfl⟩⟩

end Theorems

end SiteConfigDiff
